import Mathlib

/-!
Shallow embedding of the RAG pipeline of `rag_pipeline.py`
(class `RAGPipeline`: `setup_agents`, `add_documents`, `fetch_courses`,
`basic_rag_chain`) together with the contracts of its external
collaborators (vector index, catalog store, embedder, language model),
and proofs of the spec's claims about it.

Python strings are modelled as `List Char`; the fallible external calls
are modelled as `Except Err _` values supplied through an environment
record, so that every combination of injected failures is a single
environment value and the pipeline itself is a total function.
-/

namespace RAGPipe

/-- Error values raised by external collaborators (`str(e)` in the source). -/
abbrev Err := List Char

/-- Embedding vectors are opaque data to the pipeline; it only passes them
through to the index.  We model them as integer lists. -/
abbrev Vec := List Int

/-- A raw document object as produced by the external loaders:
`doc.page_content` and `doc.metadata.get("source", "uploaded_file")`
(the source field is modelled post-defaulting). -/
structure Doc where
  page_content : List Char
  source : List Char
deriving Repr, DecidableEq

/-- One observation of `datetime.now()`: the integer epoch second
(`int(datetime.now().timestamp())`) and the ISO rendering
(`datetime.now().isoformat()`). -/
structure Timestamp where
  epoch : Nat
  iso : List Char
deriving Repr, DecidableEq

/-- The payload stored with each point by `add_documents`
(rag_pipeline.py lines 104-109). -/
structure Payload where
  content : List Char
  user_id : List Char
  source : List Char
  uploaded_at : List Char
deriving Repr, DecidableEq

/-- A point of the vector index: id, vector, payload
(rag_pipeline.py lines 100-112). -/
structure Point where
  id : List Char
  vector : Vec
  payload : Payload
deriving Repr, DecidableEq

/-- A row of the `courses` table as consumed by the pipeline
(title/subject/level/description/price/subscribers; `description` may be
NULL, the other fields are accessed unconditionally). -/
structure CourseRow where
  title : List Char
  subject : List Char
  level : List Char
  description : Option (List Char)
  price : Nat
  subscribers : Nat
deriving Repr, DecidableEq

/-- Model of Python `str.lower()` on the character lists we handle
(ASCII case folding, which is all the pipeline's trigger words need). -/
def lowerL (s : List Char) : List Char := s.map Char.toLower

/-- Model of Python `pat in s` for strings: substring containment
(decided through Mathlib's `List.decidableInfix`). -/
def pyIn (pat s : List Char) : Bool := decide (pat <:+: s)

theorem pyIn_iff {pat s : List Char} : pyIn pat s = true ↔ pat <:+: s := by
  simp [pyIn]

/-- Model of Python `sep.join(items)` for strings. -/
def pyJoin (sep : List Char) : List (List Char) → List Char
  | [] => []
  | [x] => x
  | x :: y :: rest => x ++ sep ++ pyJoin sep (y :: rest)

/-- The decimal digit characters, as produced by Python `str(n)`. -/
def digitChar : Nat → Char
  | 0 => '0' | 1 => '1' | 2 => '2' | 3 => '3' | 4 => '4'
  | 5 => '5' | 6 => '6' | 7 => '7' | 8 => '8' | 9 => '9'
  | _ => '*'

/-- Numeric value of a decimal digit character (left inverse of `digitChar`). -/
def digitVal (c : Char) : Nat := c.toNat - 48

/-- Digit production for `natDecimal`, structured with explicit fuel so the
definition is structurally recursive (hence evaluable inside the kernel);
`natDecimal` below supplies always-sufficient fuel and
`natDecimal_eq` recovers the natural recurrence. -/
def natDecimalFuel : Nat → Nat → List Char
  | 0, _ => []
  | fuel + 1, n =>
    if n < 10 then [digitChar n]
    else natDecimalFuel fuel (n / 10) ++ [digitChar (n % 10)]

/-- Model of Python `str(n)` for a non-negative integer: its decimal digits. -/
def natDecimal (n : Nat) : List Char := natDecimalFuel (n + 1) n

theorem natDecimalFuel_succ (fuel n : Nat) :
    natDecimalFuel (fuel + 1) n =
      if n < 10 then [digitChar n]
      else natDecimalFuel fuel (n / 10) ++ [digitChar (n % 10)] := rfl

theorem natDecimalFuel_irrel :
    ∀ f₁ : Nat, ∀ f₂ n : Nat, n < f₁ → n < f₂ →
      natDecimalFuel f₁ n = natDecimalFuel f₂ n := by
  intro f₁
  induction f₁ with
  | zero => intro f₂ n h1 _; omega
  | succ f ih =>
    intro f₂ n h1 h2
    cases f₂ with
    | zero => omega
    | succ g =>
      by_cases h : n < 10
      · simp [natDecimalFuel_succ, h]
      · have hd : n / 10 < n := Nat.div_lt_self (by omega) (by omega)
        simp only [natDecimalFuel_succ, h, if_neg, not_false_iff]
        rw [ih g (n / 10) (by omega) (by omega)]

/-- The natural recurrence of `natDecimal`. -/
theorem natDecimal_eq (n : Nat) :
    natDecimal n =
      if n < 10 then [digitChar n]
      else natDecimal (n / 10) ++ [digitChar (n % 10)] := by
  by_cases h : n < 10
  · simp [natDecimal, natDecimalFuel_succ, h]
  · have hd : n / 10 < n := Nat.div_lt_self (by omega) (by omega)
    rw [if_neg h, natDecimal, natDecimalFuel_succ, if_neg h, natDecimal]
    congr 1
    exact natDecimalFuel_irrel n (n / 10 + 1) (n / 10) (by omega) (by omega)

/-- Value of a digit string read left to right (proof tool for
injectivity of `natDecimal`). -/
def decVal (s : List Char) : Nat := s.foldl (fun a c => 10 * a + digitVal c) 0

theorem digitVal_digitChar {n : Nat} (h : n < 10) : digitVal (digitChar n) = n := by
  interval_cases n <;> rfl

theorem digitChar_ne_underscore {n : Nat} (h : n < 10) : digitChar n ≠ '_' := by
  interval_cases n <;> decide

theorem decVal_append_digit (s : List Char) (c : Char) :
    decVal (s ++ [c]) = 10 * decVal s + digitVal c := by
  simp [decVal, List.foldl_append]

theorem decVal_natDecimal (n : Nat) : decVal (natDecimal n) = n := by
  induction n using Nat.strong_induction_on with
  | _ n ih =>
    rw [natDecimal_eq]
    by_cases h : n < 10
    · simp only [h, if_pos]
      simp [decVal, digitVal_digitChar h]
    · simp only [h, if_neg, not_false_iff]
      rw [decVal_append_digit, ih (n / 10) (Nat.div_lt_self (by omega) (by omega)),
        digitVal_digitChar (Nat.mod_lt _ (by omega))]
      omega

theorem natDecimal_injective : Function.Injective natDecimal := by
  intro m n h
  have := decVal_natDecimal m
  rw [h, decVal_natDecimal] at this
  omega

theorem natDecimal_no_underscore (n : Nat) : ∀ c ∈ natDecimal n, c ≠ '_' := by
  induction n using Nat.strong_induction_on with
  | _ n ih =>
    rw [natDecimal_eq]
    by_cases h : n < 10
    · simp only [h, if_pos]
      intro c hc
      simp only [List.mem_singleton] at hc
      subst hc
      exact digitChar_ne_underscore h
    · simp only [h, if_neg, not_false_iff]
      intro c hc
      rcases List.mem_append.mp hc with h1 | h1
      · exact ih (n / 10) (Nat.div_lt_self (by omega) (by omega)) c h1
      · simp only [List.mem_singleton] at h1
        subst h1
        exact digitChar_ne_underscore (Nat.mod_lt _ (by omega))

/-- Comma insertion into a reversed digit string, tracking how many digits
have been emitted: a `','` goes before every digit whose index is a
positive multiple of three. -/
def commaRevGo : List Char → Nat → List Char
  | [], _ => []
  | c :: rest, k =>
    if k % 3 = 0 ∧ k ≠ 0 then ',' :: c :: commaRevGo rest (k + 1)
    else c :: commaRevGo rest (k + 1)

/-- Model of Python `f"{n:,}"` for a non-negative integer: decimal digits
grouped in threes by commas. -/
def commaFmt (n : Nat) : List Char :=
  (commaRevGo (natDecimal n).reverse 0).reverse

/-- If two strings of underscore-free characters are glued to tails with an
underscore in between, the glue point is unambiguous. -/
theorem underscore_split_inj :
    ∀ (a b c d : List Char), (∀ x ∈ a, x ≠ '_') → (∀ x ∈ b, x ≠ '_') →
      a ++ '_' :: c = b ++ '_' :: d → a = b ∧ c = d := by
  intro a
  induction a with
  | nil =>
    intro b c d _ hb h
    cases b with
    | nil => simpa using h
    | cons y ys =>
      simp only [List.nil_append, List.cons_append, List.cons.injEq] at h
      exact absurd h.1.symm (hb y (by simp))
  | cons x xs ih =>
    intro b c d ha hb h
    cases b with
    | nil =>
      simp only [List.cons_append, List.nil_append, List.cons.injEq] at h
      exact absurd h.1 (ha x (by simp))
    | cons y ys =>
      simp only [List.cons_append, List.cons.injEq] at h
      obtain ⟨hxy, htail⟩ := h
      obtain ⟨h1, h2⟩ := ih ys c d (fun z hz => ha z (by simp [hz]))
        (fun z hz => hb z (by simp [hz])) htail
      exact ⟨by simp [hxy, h1], h2⟩

/-! ### The question/context separator split

`basic_rag_chain` (lines 150-152) runs
`parts = query.split("\n\nQuestion: ")`, then takes `parts[0]` as the
enrollment-context part (when more than one part exists) and `parts[-1]`
as the bare question.  `findSep` locates the first occurrence of the
separator; `pySplit` is Python `str.split` for this non-empty separator
(split at the leftmost occurrence, recurse on the remainder). -/

/-- The literal separator `"\n\nQuestion: "` of rag_pipeline.py line 150. -/
def sepLit : List Char := "\n\nQuestion: ".data

/-- First occurrence of `sepLit` in a string: `some (before, after)` with the
separator removed, `none` when the separator does not occur. -/
def findSep : List Char → Option (List Char × List Char)
  | [] => none
  | c :: rest =>
    if sepLit.isPrefixOf (c :: rest) then some ([], (c :: rest).drop sepLit.length)
    else
      match findSep rest with
      | none => none
      | some (a, b) => some (c :: a, b)

theorem findSep_eq_append {l a b : List Char} (h : findSep l = some (a, b)) :
    l = a ++ sepLit ++ b := by
  induction l generalizing a b with
  | nil => simp [findSep] at h
  | cons c rest ih =>
    rw [findSep] at h
    by_cases hp : sepLit.isPrefixOf (c :: rest)
    · simp only [hp, if_pos] at h
      obtain ⟨ha, hb⟩ := Prod.mk.injEq .. ▸ Option.some.injEq .. ▸ h
      have hpre : sepLit <+: c :: rest := List.isPrefixOf_iff_prefix.mp hp
      obtain ⟨t, ht⟩ := hpre
      subst ha
      rw [← hb, ← ht]
      simp [List.drop_left]
    · simp only [hp, if_neg, not_false_iff] at h
      cases hfs : findSep rest with
      | none => rw [hfs] at h; exact absurd h (by simp)
      | some ab =>
        obtain ⟨a', b'⟩ := ab
        rw [hfs] at h
        obtain ⟨ha, hb⟩ := Prod.mk.injEq .. ▸ Option.some.injEq .. ▸ h
        subst hb
        rw [← ha]
        simpa using ih hfs

theorem findSep_none_not_infix {l : List Char} (h : findSep l = none) :
    ¬ sepLit <:+: l := by
  induction l with
  | nil =>
    intro hc
    have := List.eq_nil_of_infix_nil hc
    simp [sepLit] at this
  | cons c rest ih =>
    rw [findSep] at h
    by_cases hp : sepLit.isPrefixOf (c :: rest)
    · simp [hp] at h
    · simp only [hp, if_neg, not_false_iff] at h
      cases hfs : findSep rest with
      | some ab => rw [hfs] at h; cases ab; exact absurd h (by simp)
      | none =>
        intro hc
        rcases List.infix_cons_iff.mp hc with hpre | hinf
        · exact hp (List.isPrefixOf_iff_prefix.mpr hpre)
        · exact ih hfs hinf

theorem findSep_some_length {l a b : List Char} (h : findSep l = some (a, b)) :
    b.length < l.length := by
  have := findSep_eq_append h
  have hs : sepLit.length = 12 := by decide
  rw [this]
  simp only [List.length_append]
  omega

/-- Splitting with explicit fuel (each split strictly shortens the string,
so `length + 1` fuel always suffices; the fuel keeps the definition
structurally recursive and hence kernel-evaluable).  `pySplit_eq` below
recovers the natural recurrence. -/
def pySplitFuel : Nat → List Char → List (List Char)
  | 0, l => [l]
  | fuel + 1, l =>
    match findSep l with
    | none => [l]
    | some (a, b) => a :: pySplitFuel fuel b

/-- Python `query.split("\n\nQuestion: ")`: split at each occurrence of the
separator, left to right. -/
def pySplit (l : List Char) : List (List Char) := pySplitFuel (l.length + 1) l

theorem pySplitFuel_irrel :
    ∀ f₁ : Nat, ∀ f₂ : Nat, ∀ l : List Char, l.length < f₁ → l.length < f₂ →
      pySplitFuel f₁ l = pySplitFuel f₂ l := by
  intro f₁
  induction f₁ with
  | zero => intro f₂ l h1 _; omega
  | succ f ih =>
    intro f₂ l h1 h2
    cases f₂ with
    | zero => omega
    | succ g =>
      cases hfs : findSep l with
      | none => simp [pySplitFuel, hfs]
      | some ab =>
        obtain ⟨a, b⟩ := ab
        have hb : b.length < l.length := findSep_some_length hfs
        simp only [pySplitFuel, hfs]
        rw [ih g b (by omega) (by omega)]

/-- The natural recurrence of `pySplit`. -/
theorem pySplit_eq (l : List Char) :
    pySplit l =
      match findSep l with
      | none => [l]
      | some (a, b) => a :: pySplit b := by
  cases hfs : findSep l with
  | none => simp [pySplit, pySplitFuel, hfs]
  | some ab =>
    obtain ⟨a, b⟩ := ab
    have hb : b.length < l.length := findSep_some_length hfs
    simp only [pySplit, pySplitFuel, hfs]
    rw [pySplitFuel_irrel l.length (b.length + 1) b (by omega) (by omega)]
    rfl

theorem pySplit_ne_nil (l : List Char) : pySplit l ≠ [] := by
  rw [pySplit_eq]
  cases hfs : findSep l with
  | none => simp
  | some ab => cases ab; simp

/-- `parts[-1]`: the bare question recovered by `basic_rag_chain` line 152. -/
def bareQuestion (query : List Char) : List Char :=
  (pySplit query).getLastD []

/-- `parts[0] if len(parts) > 1 else ""`: the enrollment-context part
recovered by `basic_rag_chain` line 151. -/
def contextPart (query : List Char) : List Char :=
  if (pySplit query).length > 1 then (pySplit query).headD [] else []

/-! ### Vector index contract

The index (Qdrant) is an external collaborator.  Its semantics are the
spec's §4.2 contract: `upsert` overwrites on id collision; `search`
returns at most `limit` points satisfying the payload filter, filtered
server-side.  The ranking by cosine distance is abstracted away (the
pipeline never depends on result order, and the claims proved below are
invariant under any permutation of the filtered points), so `search` is
modelled as filter-then-truncate and the query vector is unused. -/

/-- One `must`-clause of the search filter: payload key must equal value
(the shape `{"key": ..., "match": {"value": ...}}` of line 165). -/
structure MatchCond where
  key : List Char
  value : List Char
deriving Repr, DecidableEq

/-- The query filter shape used by the pipeline: a conjunction of
equality `must`-clauses. -/
structure QFilter where
  must : List MatchCond
deriving Repr, DecidableEq

/-- Payload field lookup by key, for the filter's `key` strings. -/
def payloadField (p : Payload) (k : List Char) : Option (List Char) :=
  if k = "content".data then some p.content
  else if k = "user_id".data then some p.user_id
  else if k = "source".data then some p.source
  else if k = "uploaded_at".data then some p.uploaded_at
  else none

/-- A payload satisfies a filter when every `must`-clause's key equals its value. -/
def satisfiesFilter (f : QFilter) (p : Payload) : Bool :=
  f.must.all fun c => payloadField p c.key == some c.value

/-- The exact filter `basic_rag_chain` sends on line 165:
`{"must": [{"key": "user_id", "match": {"value": user_id}}]}`. -/
def searchFilter (user_id : List Char) : QFilter :=
  ⟨[⟨"user_id".data, user_id⟩]⟩

/-- Index search per the §4.2 contract: server-side filtered, at most
`limit` results (ranking abstracted, see section comment). -/
def indexSearch (store : List Point) (_queryVector : Vec) (limit : Nat)
    (f : QFilter) : List Point :=
  (store.filter fun p => satisfiesFilter f p.payload).take limit

/-- Index upsert per the §4.2 contract: overwrites on id collision
(colliding stored points are replaced by the incoming batch). -/
def upsertStore (store : List Point) (pts : List Point) : List Point :=
  (store.filter fun p => !(pts.any fun q => q.id == p.id)) ++ pts

/-! ### The environment of external collaborators

Each fallible external call of the pipeline is one field; injecting a
failure into a stage means choosing `.error` for the corresponding
field.  `crewRun` stands for the two-agent crew configured by
`setup_agents`; it is part of the environment so that the theorems can
quantify over review-stage failures as well. -/

structure Env where
  /-- `qdrant.collection_exists("user_documents")` (line 92). -/
  collectionExists : Except Err Bool
  /-- `qdrant.create_collection(...)` (lines 93-96). -/
  createCollection : Except Err Unit
  /-- `embedder.embed_documents(texts)` (line 98). -/
  embedDocuments : List (List Char) → Except Err (List Vec)
  /-- `embedder.embed_query(question)` (line 163). -/
  embedQuery : List Char → Except Err Vec
  /-- `qdrant.upsert("user_documents", points)` (lines 114-117): the
  injected outcome of upserting this batch. -/
  upsert : List Point → Except Err Unit
  /-- The current contents of the `user_documents` collection, or an
  error when the index is unreachable at search time (line 161). -/
  store : Except Err (List Point)
  /-- The rows of the Supabase `courses` table, or an error when the
  catalog call fails (`execute()` on line 135). -/
  courses : Except Err (List CourseRow)
  /-- `chain.invoke(...)` (line 215): the language-model call, given the
  chosen template, the assembled context and the question. -/
  llm : List Char → List Char → List Char → Except Err (List Char)
  /-- The crew configured by `setup_agents` (lines 80-84), as a runnable
  review pass over the query; never consulted by `basic_rag_chain`. -/
  crewRun : List Char → Except Err (List Char)

/-! ### Ingestion (`add_documents`, lines 90-123) -/

/-- The point id of line 102: `f"{user_id}_{i}_{int(datetime.now().timestamp())}"`. -/
def pointId (user_id : List Char) (i : Nat) (epoch : Nat) : List Char :=
  user_id ++ '_' :: natDecimal i ++ '_' :: natDecimal epoch

/-- The points built by `add_documents` (lines 100-112): one per
(document, embedding) pair of `enumerate(zip(documents, embeddings))`,
with `now i` the `datetime.now()` observation made while building point
`i` (the source calls `datetime.now()` afresh inside each comprehension
element, so the timestamp is per point, not per batch). -/
def buildPoints (user_id : List Char) (documents : List Doc) (embeddings : List Vec)
    (now : Nat → Timestamp) : List Point :=
  (documents.zip embeddings).enum.map fun ie =>
    { id := pointId user_id ie.1 (now ie.1).epoch
      vector := ie.2.2
      payload :=
        { content := ie.2.1.page_content
          user_id := user_id
          source := ie.2.1.source
          uploaded_at := (now ie.1).iso } }

/-- `add_documents` (lines 90-123): ensure the collection, embed the batch,
build the points, upsert; `True` on success, `False` on any caught
failure (the whole body is one `try`/`except` returning `False`). -/
def addDocuments (env : Env) (documents : List Doc) (user_id : List Char)
    (now : Nat → Timestamp) : Bool :=
  match env.collectionExists with
  | .error _ => false
  | .ok exists_ =>
    match (if exists_ then Except.ok () else env.createCollection) with
    | .error _ => false
    | .ok _ =>
      match env.embedDocuments (documents.map (·.page_content)) with
      | .error _ => false
      | .ok embeddings =>
        match env.upsert (buildPoints user_id documents embeddings now) with
        | .error _ => false
        | .ok _ => true

/-! ### Catalog search (`fetch_courses`, lines 125-145)

The builder chain
`select("*").ilike("title", f"%{q}%").or_(f"subject.ilike.%{q}%").or_(f"description.ilike.%{q}%")`
is a PostgREST request: `.ilike` adds one top-level filter parameter and
each `.or_` call adds another top-level parameter holding the disjunction
of its comma-separated conditions; PostgREST conjoins all top-level
parameters.  So the built request is the conjunction of three one-element
disjunctions.  `ILIKE '%q%'` is modelled as case-insensitive substring
containment (`%`/`_` pattern metacharacters inside the query text are not
modelled); an `ILIKE` on a NULL `description` does not match. -/

/-- The column an `ilike` condition tests. -/
inductive FieldSel where
  | title
  | subject
  | description
deriving Repr, DecidableEq

/-- One `field.ilike.%pat%` condition. -/
structure IlikeCond where
  field : FieldSel
  pat : List Char
deriving Repr, DecidableEq

/-- The column's value on a row; `none` for a NULL `description`. -/
def fieldVal (r : CourseRow) : FieldSel → Option (List Char)
  | .title => some r.title
  | .subject => some r.subject
  | .description => r.description

/-- `ILIKE '%pat%'`: case-insensitive containment; NULL never matches. -/
def evalCond (r : CourseRow) (c : IlikeCond) : Bool :=
  match fieldVal r c.field with
  | none => false
  | some v => pyIn (lowerL c.pat) (lowerL v)

/-- The three top-level parameters built by lines 131-133, each a
disjunction of `ilike` conditions (here each a single condition). -/
def builtQuery (q : List Char) : List (List IlikeCond) :=
  [[⟨.title, q⟩], [⟨.subject, q⟩], [⟨.description, q⟩]]

/-- PostgREST evaluation: a row passes when every top-level parameter has
at least one true disjunct. -/
def evalQuery (conds : List (List IlikeCond)) (r : CourseRow) : Bool :=
  conds.all fun disj => disj.any (evalCond r)

/-- `fetch_courses` (lines 125-145): no filter when `query` is falsy
(absent or empty), otherwise the built request with the lower-cased
query; then `limit`, `execute`, `response.data or []`; any error is
caught and yields `[]`. -/
def fetchCourses (env : Env) (query : Option (List Char)) (limit : Nat) :
    List CourseRow :=
  match env.courses with
  | .error _ => []
  | .ok rows =>
    let filtered :=
      match query with
      | none => rows
      | some q => if q = [] then rows else rows.filter (evalQuery (builtQuery (lowerL q)))
    filtered.take limit

/-! ### Prompt templates and selection (lines 188-204) -/

/-- The simplified-for-child template of lines 192-197. -/
def childTemplate : List Char :=
  ("\n                You\x27re a friendly teacher talking to a six-year-old. Use this context to answer:\n                {context}\n                \n                Question: {question}\n                Explain it in a super simple way, like you\x27re telling a story with toys, animals, or fun games a six-year-old would love:").data

/-- The standard template of lines 199-204. -/
def standardTemplate : List Char :=
  ("\n                You\x27re an educational assistant. Use this context to answer:\n                {context}\n                \n                Question: {question}\n                Provide a detailed response incorporating user-uploaded materials and course information:").data

/-- Line 188: `"six-year-old" in question.lower() or "child" in question.lower()`. -/
def isChildFriendly (question : List Char) : Bool :=
  pyIn "six-year-old".data (lowerL question) || pyIn "child".data (lowerL question)

/-- The template handed to the chain (lines 191-204). -/
def chosenTemplate (question : List Char) : List Char :=
  if isChildFriendly question then childTemplate else standardTemplate

/-! ### Answer path (`basic_rag_chain`, lines 147-221) -/

/-- The user-document retrieval of lines 157-169: skipped entirely for the
default `user_id` `"unknown"`; otherwise embed the bare question and
search the index with limit 3 and the `user_id` equality filter, any
failure in either call being caught (`user_doc_results` stays `[]`). -/
def userDocResults (env : Env) (question : List Char) (user_id : List Char) :
    List Point :=
  if user_id ≠ "unknown".data then
    match env.embedQuery question with
    | .error _ => []
    | .ok qv =>
      match env.store with
      | .error _ => []
      | .ok pts => indexSearch pts qv 3 (searchFilter user_id)
  else []

/-- One rendered excerpt of line 174:
`f"User Document: {hit.payload['content'][:200]}..."` — note the marker
is part of the literal, appended whatever the excerpt's length. -/
def userDocLine (hit : Point) : List Char :=
  "User Document: ".data ++ hit.payload.content.take 200 ++ "...".data

/-- The user-document block of line 174. -/
def userDocContext (hits : List Point) : List Char :=
  if hits = [] then "No relevant user documents found.".data
  else pyJoin "\n\n".data (hits.map userDocLine)

/-- One rendered course summary of lines 176-181 (`{subscribers:,}` is the
comma-grouped decimal rendering). -/
def renderCourse (c : CourseRow) : List Char :=
  "Course: ".data ++ c.title ++
    "\nSubject: ".data ++ c.subject ++
    "\nLevel: ".data ++ c.level ++
    "\nDescription: ".data ++ (match c.description with
      | some d => d
      | none => "N/A".data) ++
    "\nPrice: $".data ++ natDecimal c.price ++
    "\nSubscribers: ".data ++ commaFmt c.subscribers

/-- The course block of lines 175-183. -/
def courseContext (rows : List CourseRow) : List Char :=
  if rows = [] then "No relevant courses found.".data
  else pyJoin "\n\n".data (rows.map renderCourse)

/-- The assembled context of line 185:
`f"{context_part}\n\nUser Uploaded Documents:\n{user_doc_context}\n\nAvailable Courses:\n{course_context}"`. -/
def fullContextOf (env : Env) (query : List Char) (user_id : List Char) :
    List Char :=
  contextPart query ++ "\n\nUser Uploaded Documents:\n".data ++
    userDocContext (userDocResults env (bareQuestion query) user_id) ++
    "\n\nAvailable Courses:\n".data ++
    courseContext (fetchCourses env (some (bareQuestion query)) 5)

/-- `basic_rag_chain` (lines 147-221): split the query, retrieve, assemble
the context, choose the template, invoke the model; the outer
`try`/`except` converts any uncaught failure (in this model, only the
model call can still fail at that point) into the apology string of line
221. -/
def basicRagChain (env : Env) (query : List Char) (user_id : List Char) :
    List Char :=
  match env.llm (chosenTemplate (bareQuestion query)) (fullContextOf env query user_id)
      (bareQuestion query) with
  | .ok response => response
  | .error e =>
    "I couldn\x27t process that request. Please try again. (Error: ".data ++ e ++ ")".data

/-! ### The external calls made by one `basic_rag_chain` run

An effect trace of the answer path, mirroring its control flow: the
embedding and index calls happen only for a known user (and the index
call only once the embedding succeeded, since the embedding is evaluated
inside the `search` argument list); the catalog fetch and the model call
always happen; nothing else — in particular the crew configured by
`setup_agents` is never invoked. -/

inductive Call where
  | embedQueryCall
  | indexSearchCall
  | catalogFetchCall
  | llmInvokeCall
  | crewKickoffCall
deriving Repr, DecidableEq

/-- The ordered external calls of one `basic_rag_chain` run. -/
def basicRagChainCalls (env : Env) (query : List Char) (user_id : List Char) :
    List Call :=
  (if user_id ≠ "unknown".data then
    Call.embedQueryCall ::
      (match env.embedQuery (bareQuestion query) with
        | .ok _ => [Call.indexSearchCall]
        | .error _ => [])
  else []) ++ [Call.catalogFetchCall, Call.llmInvokeCall]

/-! ### `setup_agents` (lines 50-88)

The two agents and the two tasks, and the crew's task list in its
configured order. -/

structure AgentSpec where
  role : List Char
  goal : List Char
  backstory : List Char
deriving Repr, DecidableEq

structure TaskSpec where
  description : List Char
  agentRole : List Char
  expected_output : List Char
deriving Repr, DecidableEq

/-- The intent-classification agent of lines 52-58. -/
def intentAgent : AgentSpec :=
  ⟨"Intent Classifier".data,
   "Determine user intent (course_recommendation/course_qa/career_advice/summarization)".data,
   "Expert in understanding educational queries".data⟩

/-- The quality-assurance agent of lines 60-66. -/
def contextAgent : AgentSpec :=
  ⟨"Quality Assurance".data,
   "Review responses for accuracy".data,
   "Specialist in educational content verification".data⟩

/-- The classification task of lines 68-72. -/
def classifyTask : TaskSpec :=
  ⟨"Classify: {query}".data, intentAgent.role, "Intent classification".data⟩

/-- The review task of lines 74-78. -/
def reviewTask : TaskSpec :=
  ⟨"Verify: {response}".data, contextAgent.role, "Improved response".data⟩

/-- The crew's task list as configured on lines 80-84. -/
def crewTasks : List TaskSpec := [classifyTask, reviewTask]

/-! ### Claim theorems -/

theorem getLastD_cons_ne_nil {a : Type} (x d : a) (t : List a) (h : t ≠ []) :
    (x :: t).getLastD d = t.getLastD d := by
  cases t with
  | nil => exact absurd rfl h
  | cons y t2 => simp [List.getLastD]

/-- C6: for every input query string, the bare question used by
`basic_rag_chain` equals the substring of the input after the last
occurrence of the literal separator `"\n\nQuestion: "`: either the
separator does not occur and the question is the whole input, or the
input decomposes as `p ++ sep ++ question` with no further occurrence of
the separator inside the question. -/
theorem question_split_last_sep (query : List Char) :
    (bareQuestion query = query ∧ ¬ sepLit <:+: query) ∨
    (∃ p, query = p ++ sepLit ++ bareQuestion query ∧
      ¬ sepLit <:+: bareQuestion query) := by
  suffices h : ∀ n : Nat, ∀ l : List Char, l.length ≤ n →
      (bareQuestion l = l ∧ ¬ sepLit <:+: l) ∨
      (∃ p, l = p ++ sepLit ++ bareQuestion l ∧ ¬ sepLit <:+: bareQuestion l) by
    exact h query.length query le_rfl
  intro n
  induction n with
  | zero =>
    intro l hl
    have hnil : l = [] := List.length_eq_zero.mp (Nat.le_zero.mp hl)
    subst hnil
    exact Or.inl ⟨by decide, by decide⟩
  | succ n ih =>
    intro l hl
    cases hfs : findSep l with
    | none =>
      have hps : pySplit l = [l] := by rw [pySplit_eq, hfs]
      refine Or.inl ⟨?_, findSep_none_not_infix hfs⟩
      simp [bareQuestion, hps]
    | some ab =>
      obtain ⟨a, b⟩ := ab
      have hb : b.length < l.length := findSep_some_length hfs
      have heq : l = a ++ sepLit ++ b := findSep_eq_append hfs
      have hps : pySplit l = a :: pySplit b := by rw [pySplit_eq, hfs]
      have hbq : bareQuestion l = bareQuestion b := by
        simp only [bareQuestion, hps]
        exact getLastD_cons_ne_nil a [] (pySplit b) (pySplit_ne_nil b)
      rcases ih b (by omega) with ⟨hq, hni⟩ | ⟨p, hp, hni⟩
      · refine Or.inr ⟨a, ?_, ?_⟩
        · rw [hbq, hq]; exact heq
        · rw [hbq, hq]; exact hni
      · refine Or.inr ⟨a ++ sepLit ++ p, ?_, ?_⟩
        · rw [hbq]
          calc l = a ++ sepLit ++ b := heq
            _ = a ++ sepLit ++ (p ++ sepLit ++ bareQuestion b) := by rw [← hp]
            _ = a ++ sepLit ++ p ++ sepLit ++ bareQuestion b := by
                simp [List.append_assoc]
        · rw [hbq]; exact hni

/-- C3: the pipeline hands the chain the simplified-for-child template
exactly when the lower-cased question contains the substring
"six-year-old" or the substring "child"; otherwise the standard
template. -/
theorem prompt_selector_child_iff (question : List Char) :
    chosenTemplate question = childTemplate ↔
      ("six-year-old".data <:+: lowerL question ∨
        "child".data <:+: lowerL question) := by
  have hne : standardTemplate ≠ childTemplate := by decide
  unfold chosenTemplate
  by_cases h : isChildFriendly question
  · simp only [h, if_pos]
    unfold isChildFriendly at h
    rcases Bool.or_eq_true _ _ |>.mp h with h1 | h1
    · exact ⟨fun _ => Or.inl (pyIn_iff.mp h1), fun _ => trivial⟩
    · exact ⟨fun _ => Or.inr (pyIn_iff.mp h1), fun _ => trivial⟩
  · rw [if_neg h]
    constructor
    · intro hEq
      exact absurd hEq hne
    · intro hor
      exfalso
      apply h
      unfold isChildFriendly
      rcases hor with h1 | h1
      · exact Bool.or_eq_true _ _ |>.mpr (Or.inl (pyIn_iff.mpr h1))
      · exact Bool.or_eq_true _ _ |>.mpr (Or.inr (pyIn_iff.mpr h1))

/-- C8: `add_documents` is a total boolean-returning function, true
exactly when the collection check succeeds, the collection is created
when absent, the batch embedding succeeds, and the upsert of the built
points succeeds; any injected failure yields false, never an
exception. -/
theorem add_documents_bool_iff (env : Env) (documents : List Doc)
    (user_id : List Char) (now : Nat → Timestamp) :
    addDocuments env documents user_id now = true ↔
      ∃ exists_ : Bool, env.collectionExists = .ok exists_ ∧
        (exists_ = false → env.createCollection = .ok ()) ∧
        ∃ embeddings, env.embedDocuments (documents.map (·.page_content)) =
            .ok embeddings ∧
          env.upsert (buildPoints user_id documents embeddings now) = .ok () := by
  unfold addDocuments
  cases hce : env.collectionExists with
  | error e => simp [hce]
  | ok exists_ =>
    cases exists_ with
    | true =>
      cases hed : env.embedDocuments (documents.map (·.page_content)) with
      | error e => simp
      | ok embeddings =>
        cases hup : env.upsert (buildPoints user_id documents embeddings now) with
        | error e => simp [hup]
        | ok u =>
          cases u
          constructor
          · intro _
            exact ⟨true, rfl, fun hh => Bool.noConfusion hh, embeddings, rfl, hup⟩
          · intro _
            simp [hup]
    | false =>
      cases hcc : env.createCollection with
      | error e => simp
      | ok u =>
        cases u
        cases hed : env.embedDocuments (documents.map (·.page_content)) with
        | error e => simp
        | ok embeddings =>
          cases hup : env.upsert (buildPoints user_id documents embeddings now) with
          | error e => simp [hup]
          | ok u2 =>
            cases u2
            constructor
            · intro _
              exact ⟨false, rfl, fun _ => rfl, embeddings, rfl, hup⟩
            · intro _
              simp [hup]

/-! ### Shared concrete environments for witnesses and counterexamples -/

/-- An environment in which every external collaborator fails. -/
def failEnv : Env :=
  { collectionExists := .error "connection refused".data
    createCollection := .error "connection refused".data
    embedDocuments := fun _ => .error "embedder down".data
    embedQuery := fun _ => .error "embedder down".data
    upsert := fun _ => .error "connection refused".data
    store := .error "connection refused".data
    courses := .error "catalog down".data
    llm := fun _ _ _ => .error "model down".data
    crewRun := fun _ => .error "crew down".data }

/-- C1: under any combination of injected failures in the embedding
service, the index search, the catalog search, the generation call or
the review stage (every choice of `env`), `basic_rag_chain` returns a
string and never propagates an exception, and — the generation stage
returning non-empty drafts when it succeeds — that string is non-empty
(the apology string on a generation failure). -/
theorem answer_query_total_nonempty (env : Env) (query user_id : List Char)
    (hllm : ∀ t c q s, env.llm t c q = .ok s → s ≠ []) :
    basicRagChain env query user_id ≠ [] := by
  unfold basicRagChain
  cases hl : env.llm (chosenTemplate (bareQuestion query))
      (fullContextOf env query user_id) (bareQuestion query) with
  | ok s => exact hllm _ _ _ s hl
  | error e =>
    intro hcon
    have hlen := congrArg List.length hcon
    rw [List.length_append, List.length_append, List.length_nil] at hlen
    have hpos :
        0 < ("I couldn\x27t process that request. Please try again. (Error: ".data).length := by
      decide
    omega

/-- Witness for C1: with every collaborator failing, the call still
returns a non-empty string. -/
theorem answer_query_total_nonempty_witness :
    basicRagChain failEnv ("What is mitosis?".data) ("u1".data) ≠ [] :=
  answer_query_total_nonempty failEnv ("What is mitosis?".data) ("u1".data)
    (fun t c q s h => by simp [failEnv] at h)

theorem buildPoints_user_id (user_id : List Char) (documents : List Doc)
    (embeddings : List Vec) (now : Nat → Timestamp) :
    ∀ p ∈ buildPoints user_id documents embeddings now,
      p.payload.user_id = user_id := by
  intro p hp
  simp only [buildPoints, List.mem_map] at hp
  obtain ⟨ie, _, hpe⟩ := hp
  rw [← hpe]

theorem userDocResults_user_id (env : Env) (question user_id : List Char) :
    ∀ hit ∈ userDocResults env question user_id,
      hit.payload.user_id = user_id := by
  intro hit hh
  unfold userDocResults at hh
  by_cases hu : user_id ≠ "unknown".data
  · rw [if_pos hu] at hh
    cases heq : env.embedQuery question with
    | error e => rw [heq] at hh; simp at hh
    | ok qv =>
      rw [heq] at hh
      cases hst : env.store with
      | error e => rw [hst] at hh; simp at hh
      | ok pts =>
        rw [hst] at hh
        unfold indexSearch at hh
        have hmem := List.mem_of_mem_take hh
        have hfil := List.of_mem_filter hmem
        unfold satisfiesFilter searchFilter at hfil
        simp only [List.all_cons, List.all_nil, Bool.and_true] at hfil
        unfold payloadField at hfil
        simp at hfil
        exact hfil
  · rw [if_neg hu] at hh
    simp at hh

/-- C2: a document chunk ingested for user A carries A as its payload
owner, every hit of the user-document search run for user B satisfies
the search's `user_id` equality filter, and hence for A ≠ B no point of
A's batch ever appears among B's search results. -/
theorem user_isolation (userA userB : List Char) (documents : List Doc)
    (embeddings : List Vec) (now : Nat → Timestamp) (env : Env)
    (question : List Char) (p : Point)
    (hne : userA ≠ userB)
    (hp : p ∈ buildPoints userA documents embeddings now) :
    p.payload.user_id = userA ∧
    (∀ hit ∈ userDocResults env question userB,
      hit.payload.user_id = userB) ∧
    p ∉ userDocResults env question userB := by
  have h1 := buildPoints_user_id userA documents embeddings now p hp
  refine ⟨h1, userDocResults_user_id env question userB, ?_⟩
  intro hmem
  have h2 := userDocResults_user_id env question userB p hmem
  rw [h1] at h2
  exact hne h2

/-- The single document of the isolation witness. -/
def isoDoc : Doc := ⟨"Mitosis is cell division.".data, "bio.txt".data⟩

/-- A fixed clock for the isolation witness. -/
def isoNow : Nat → Timestamp := fun _ => ⟨1700000000, "2023-11-14T22:13:20".data⟩

/-- The point `add_documents` builds for `isoDoc` under user `alice`. -/
def isoPoint : Point :=
  { id := "alice_0_1700000000".data
    vector := [1]
    payload :=
      { content := "Mitosis is cell division.".data
        user_id := "alice".data
        source := "bio.txt".data
        uploaded_at := "2023-11-14T22:13:20".data } }

/-- An environment whose index holds exactly alice's ingested batch. -/
def isoEnv : Env :=
  { collectionExists := .ok true
    createCollection := .ok ()
    embedDocuments := fun _ => .ok [[1]]
    embedQuery := fun _ => .ok [1]
    upsert := fun _ => .ok ()
    store := .ok (buildPoints ("alice".data) [isoDoc] [[1]] isoNow)
    courses := .ok []
    llm := fun _ _ _ => .ok "An answer.".data
    crewRun := fun q => .ok q }

/-- Witness for C2 at a concrete pair of distinct users. -/
theorem user_isolation_witness :
    isoPoint.payload.user_id = "alice".data ∧
    (∀ hit ∈ userDocResults isoEnv ("What is mitosis?".data) ("bob".data),
      hit.payload.user_id = "bob".data) ∧
    isoPoint ∉ userDocResults isoEnv ("What is mitosis?".data) ("bob".data) :=
  user_isolation ("alice".data) ("bob".data) [isoDoc] [[1]] isoNow isoEnv
    ("What is mitosis?".data) isoPoint (by decide) (by decide)

/-- C10: when `basic_rag_chain` runs with the default user id
"unknown", neither the query embedding nor the index search is ever
issued, and the user-document block of the assembled context is exactly
the placeholder string. -/
theorem unknown_user_no_search (env : Env) (query : List Char) :
    Call.embedQueryCall ∉ basicRagChainCalls env query ("unknown".data) ∧
    Call.indexSearchCall ∉ basicRagChainCalls env query ("unknown".data) ∧
    userDocContext (userDocResults env (bareQuestion query) ("unknown".data)) =
      "No relevant user documents found.".data := by
  unfold basicRagChainCalls userDocResults
  refine ⟨by simp, by simp, rfl⟩

/-- Counterexample for C5: even with every collaborator available to the
run, the external calls of a `basic_rag_chain` invocation never include
kicking off the crew configured by `setup_agents`, so the two review
steps do not execute for an `answer_query` call. -/
theorem review_stage_counterexample :
    Call.crewKickoffCall ∉ basicRagChainCalls isoEnv ("What is AI?".data) ("u1".data) := by
  decide

/-- C5 as amended: `setup_agents` wires the two tasks in the order
[classification, review] into one crew, but `basic_rag_chain` never
invokes that crew on any input, and consequently the returned answer is
independent of the crew's behaviour (so a review failure trivially
cannot block the draft). -/
theorem review_stage_amended :
    crewTasks = [classifyTask, reviewTask] ∧
    (∀ env : Env, ∀ query user_id : List Char,
      Call.crewKickoffCall ∉ basicRagChainCalls env query user_id) ∧
    (∀ env : Env, ∀ f : List Char → Except Err (List Char),
      ∀ query user_id : List Char,
        basicRagChain { env with crewRun := f } query user_id =
          basicRagChain env query user_id) := by
  refine ⟨rfl, ?_, ?_⟩
  · intro env query user_id
    unfold basicRagChainCalls
    by_cases hu : user_id ≠ "unknown".data
    · rw [if_pos hu]
      cases heq : env.embedQuery (bareQuestion query) <;> simp
    · rw [if_neg hu]
      simp
  · intro env f query user_id
    rfl

theorem userDocLine_length_le (hit : Point) : (userDocLine hit).length ≤ 218 := by
  unfold userDocLine
  rw [List.length_append, List.length_append]
  have h1 : ("User Document: ".data).length = 15 := by decide
  have h2 : ("...".data).length = 3 := by decide
  have h3 : (hit.payload.content.take 200).length ≤ 200 := by
    rw [List.length_take]
    exact Nat.min_le_left _ _
  omega

theorem userDocContext_length_le (hits : List Point) (h : hits.length ≤ 3) :
    (userDocContext hits).length ≤ 658 := by
  have hsep : ("\n\n".data).length = 2 := by decide
  rcases hits with _ | ⟨a, _ | ⟨b, _ | ⟨c, rest⟩⟩⟩
  · decide
  · have heq : userDocContext [a] = userDocLine a := rfl
    rw [heq]
    have := userDocLine_length_le a
    omega
  · have heq : userDocContext [a, b] =
        userDocLine a ++ "\n\n".data ++ userDocLine b := rfl
    rw [heq, List.length_append, List.length_append]
    have ha := userDocLine_length_le a
    have hb := userDocLine_length_le b
    omega
  · have hrest : rest = [] := by
      simp only [List.length_cons] at h
      exact List.length_eq_zero.mp (by omega)
    subst hrest
    have heq : userDocContext [a, b, c] =
        userDocLine a ++ "\n\n".data ++
          (userDocLine b ++ "\n\n".data ++ userDocLine c) := rfl
    rw [heq, List.length_append, List.length_append, List.length_append,
      List.length_append]
    have ha := userDocLine_length_le a
    have hb := userDocLine_length_le b
    have hc := userDocLine_length_le c
    omega

/-- C4 as amended: the assembled context concatenates, in fixed order,
the caller-supplied enrollment context, then the labeled block of at
most 3 user document excerpts — each the excerpt's first 200 characters
with the marker "..." appended unconditionally — then the labeled block
of at most 5 course summaries; the user-document block never exceeds
658 characters, while the total additionally contains the caller
context and the course fields untruncated. -/
theorem context_assembly_amended (env : Env) (query user_id : List Char) :
    fullContextOf env query user_id =
      contextPart query ++ "\n\nUser Uploaded Documents:\n".data ++
        userDocContext (userDocResults env (bareQuestion query) user_id) ++
        "\n\nAvailable Courses:\n".data ++
        courseContext (fetchCourses env (some (bareQuestion query)) 5) ∧
    (userDocResults env (bareQuestion query) user_id).length ≤ 3 ∧
    (fetchCourses env (some (bareQuestion query)) 5).length ≤ 5 ∧
    (∀ hit : Point,
      userDocLine hit =
        "User Document: ".data ++ hit.payload.content.take 200 ++ "...".data) ∧
    (userDocContext (userDocResults env (bareQuestion query) user_id)).length ≤ 658 := by
  have hlen3 : (userDocResults env (bareQuestion query) user_id).length ≤ 3 := by
    unfold userDocResults
    by_cases hu : user_id ≠ "unknown".data
    · rw [if_pos hu]
      cases env.embedQuery (bareQuestion query) with
      | error e => simp
      | ok qv =>
        cases env.store with
        | error e => simp
        | ok pts => exact List.length_take_le _ _
    · rw [if_neg hu]
      simp
  refine ⟨rfl, hlen3, ?_, fun _ => rfl, userDocContext_length_le _ hlen3⟩
  unfold fetchCourses
  cases env.courses with
  | error e => simp
  | ok rows => exact List.length_take_le _ _

/-- The short-excerpt hit of the C4 counterexample. -/
def cexHit : Point :=
  { id := "x".data
    vector := []
    payload :=
      { content := "abc".data
        user_id := "u".data
        source := "s".data
        uploaded_at := "t".data } }

/-- A course row carrying a 100001-character description. -/
def bigDescRow : CourseRow :=
  { title := "T".data
    subject := "S".data
    level := "L".data
    description := some (List.replicate 100001 'a')
    price := 0
    subscribers := 0 }

/-- An environment whose catalog holds `bigDescRow` only. -/
def bigEnv : Env :=
  { collectionExists := .ok true
    createCollection := .ok ()
    embedDocuments := fun _ => .ok []
    embedQuery := fun _ => .ok []
    upsert := fun _ => .ok ()
    store := .ok []
    courses := .ok [bigDescRow]
    llm := fun _ _ _ => .ok "An answer.".data
    crewRun := fun q => .ok q }

/-- Counterexample for C4: the truncation marker "..." is appended even
to a 3-character excerpt (so it is not applied "exactly when the
excerpt exceeds the bound"), and the assembled context is not bounded —
a single course description of 100001 characters already pushes the
assembled context past 100000 characters, because course fields and the
caller context are never truncated. -/
theorem context_assembly_counterexample :
    (cexHit.payload.content.length ≤ 200 ∧
      userDocLine cexHit = "User Document: abc...".data) ∧
    100000 < (fullContextOf bigEnv [] ("unknown".data)).length := by
  refine ⟨⟨by decide, by decide⟩, ?_⟩
  have h1 : fullContextOf bigEnv [] ("unknown".data) =
      contextPart [] ++ "\n\nUser Uploaded Documents:\n".data ++
        userDocContext [] ++ "\n\nAvailable Courses:\n".data ++
        renderCourse bigDescRow := rfl
  have h3 : 100001 ≤ (renderCourse bigDescRow).length := by
    show (100001 : Nat) ≤
      ("Course: ".data ++ "T".data ++
        "\nSubject: ".data ++ "S".data ++
        "\nLevel: ".data ++ "L".data ++
        "\nDescription: ".data ++ List.replicate 100001 'a' ++
        "\nPrice: $".data ++ natDecimal 0 ++
        "\nSubscribers: ".data ++ commaFmt 0).length
    simp only [List.length_append, List.length_replicate]
    omega
  rw [h1]
  simp only [List.length_append]
  omega

/-- Comparison definition following the spec's own words (§4.3): fuzzy
substring matching against title, subject, and description,
OR-combined.  Used only to exhibit the divergence from the built
request's semantics. -/
def specOrMatch (q : List Char) (r : CourseRow) : Bool :=
  pyIn (lowerL q) (lowerL r.title) || pyIn (lowerL q) (lowerL r.subject) ||
    (match r.description with
      | some d => pyIn (lowerL q) (lowerL d)
      | none => false)

/-- A course whose title alone contains "python". -/
def orCexRow : CourseRow :=
  { title := "Python for Beginners".data
    subject := "Programming".data
    level := "Beginner".data
    description := some ("Learn coding".data)
    price := 10
    subscribers := 1000 }

/-- An environment whose catalog holds `orCexRow` only. -/
def orCexEnv : Env :=
  { collectionExists := .ok true
    createCollection := .ok ()
    embedDocuments := fun _ => .ok []
    embedQuery := fun _ => .ok []
    upsert := fun _ => .ok ()
    store := .ok []
    courses := .ok [orCexRow]
    llm := fun _ _ _ => .ok "An answer.".data
    crewRun := fun q => .ok q }

/-- Counterexample for C7: on a catalog whose single course matches the
query "python" in its title but not in its subject or description,
OR-combined matching selects the course, yet `fetch_courses` returns
the empty list — the one `ilike` parameter and the two `or_` parameters
built by the chain are conjoined by the catalog service, so the
matching is AND-combined, not OR-combined. -/
theorem fetch_courses_or_counterexample :
    specOrMatch ("python".data) orCexRow = true ∧
    fetchCourses orCexEnv (some ("python".data)) 5 = [] :=
  ⟨by decide, by decide⟩

/-- C7 as amended: with an absent query `fetch_courses` returns the
first `limit` rows; with a non-empty query present it returns only rows
whose title AND subject AND description each satisfy the respective
`ilike` containment condition (the chained `.ilike`/`.or_`/`.or_`
parameters are conjoined); it never returns more than `limit` rows, and
on any catalog error it returns the empty list instead of raising. -/
theorem fetch_courses_amended (env : Env) (q : List Char) (limit : Nat) :
    (∀ e, env.courses = .error e →
      fetchCourses env (some q) limit = [] ∧ fetchCourses env none limit = []) ∧
    (∀ rows, env.courses = .ok rows →
      fetchCourses env none limit = rows.take limit) ∧
    (fetchCourses env (some q) limit).length ≤ limit ∧
    (q ≠ [] → ∀ r ∈ fetchCourses env (some q) limit,
      evalCond r ⟨FieldSel.title, lowerL q⟩ = true ∧
      evalCond r ⟨FieldSel.subject, lowerL q⟩ = true ∧
      evalCond r ⟨FieldSel.description, lowerL q⟩ = true) := by
  refine ⟨?_, ?_, ?_, ?_⟩
  · intro e he
    unfold fetchCourses
    rw [he]
    exact ⟨rfl, rfl⟩
  · intro rows hr
    unfold fetchCourses
    rw [hr]
  · unfold fetchCourses
    cases env.courses with
    | error e => simp
    | ok rows =>
      dsimp only
      by_cases hq : q = []
      · rw [if_pos hq]
        exact List.length_take_le _ _
      · rw [if_neg hq]
        exact List.length_take_le _ _
  · intro hq r hr
    unfold fetchCourses at hr
    cases hco : env.courses with
    | error e => rw [hco] at hr; simp at hr
    | ok rows =>
      rw [hco] at hr
      dsimp only at hr
      rw [if_neg hq] at hr
      have hmem := List.mem_of_mem_take hr
      have hev := List.of_mem_filter hmem
      simp only [evalQuery, builtQuery, List.all_cons, List.all_nil,
        List.any_cons, List.any_nil, Bool.and_true, Bool.or_false,
        Bool.and_eq_true] at hev
      exact ⟨hev.1, hev.2.1, hev.2.2⟩

/-- A course matching the query "python" in title, subject and
description at once. -/
def allMatchRow : CourseRow :=
  { title := "Python Basics".data
    subject := "Python".data
    level := "Beginner".data
    description := some ("Learn Python".data)
    price := 20
    subscribers := 5 }

/-- An environment whose catalog holds `allMatchRow` only. -/
def courseEnv : Env :=
  { collectionExists := .ok true
    createCollection := .ok ()
    embedDocuments := fun _ => .ok []
    embedQuery := fun _ => .ok []
    upsert := fun _ => .ok ()
    store := .ok []
    courses := .ok [allMatchRow]
    llm := fun _ _ _ => .ok "An answer.".data
    crewRun := fun q => .ok q }

/-- Witness for C7 as amended, at a concrete catalog and query. -/
theorem fetch_courses_amended_witness :
    fetchCourses courseEnv none 5 = [allMatchRow] ∧
    evalCond allMatchRow ⟨FieldSel.title, lowerL ("python".data)⟩ = true :=
  ⟨(fetch_courses_amended courseEnv ("python".data) 5).2.1 [allMatchRow] rfl,
   ((fetch_courses_amended courseEnv ("python".data) 5).2.2.2 (by decide)
      allMatchRow (by decide)).1⟩

theorem pointId_inj (user_id : List Char) {i t j s : Nat}
    (h : pointId user_id i t = pointId user_id j s) : i = j ∧ t = s := by
  unfold pointId at h
  simp only [List.cons_append, List.append_assoc] at h
  have h2 := List.append_cancel_left h
  injection h2 with _ h3
  obtain ⟨hd1, hd2⟩ := underscore_split_inj (natDecimal i) (natDecimal j)
    (natDecimal t) (natDecimal s) (natDecimal_no_underscore i)
    (natDecimal_no_underscore j) h3
  exact ⟨natDecimal_injective hd1, natDecimal_injective hd2⟩

theorem buildPoints_get_id (user_id : List Char) (documents : List Doc)
    (embeddings : List Vec) (now : Nat → Timestamp) (i : Nat)
    (h : i < (buildPoints user_id documents embeddings now).length) :
    ((buildPoints user_id documents embeddings now).get ⟨i, h⟩).id =
      pointId user_id i (now i).epoch := by
  simp only [buildPoints, List.get_eq_getElem, List.getElem_map, List.getElem_enum]

theorem buildPoints_mem_id (user_id : List Char) (documents : List Doc)
    (embeddings : List Vec) (now : Nat → Timestamp) :
    ∀ p ∈ buildPoints user_id documents embeddings now,
      ∃ k, p.id = pointId user_id k (now k).epoch := by
  intro p hp
  simp only [buildPoints, List.mem_map] at hp
  obtain ⟨ie, _, hpe⟩ := hp
  exact ⟨ie.1, by rw [← hpe]⟩

/-- The one-chunk document of the C9 scenarios. -/
def sameDoc : Doc := ⟨"Mitosis is cell division.".data, "bio.txt".data⟩

/-- A clock frozen at epoch second 100. -/
def now100 : Nat → Timestamp := fun _ => ⟨100, "1970-01-01T00:01:40".data⟩

/-- A clock frozen at epoch second 101. -/
def now101 : Nat → Timestamp := fun _ => ⟨101, "1970-01-01T00:01:41".data⟩

/-- Counterexample for C9: the id timestamp has one-second granularity,
so a later call that lands in the same integer second rebuilds the very
same ids and the upsert then overwrites: after ingesting the same
one-chunk file twice at epoch second 100, the store holds a single
point, not an additional one. -/
theorem point_id_same_second_counterexample :
    (upsertStore (upsertStore [] (buildPoints ("u1".data) [sameDoc] [[1]] now100))
      (buildPoints ("u1".data) [sameDoc] [[1]] now100)).length = 1 := by
  decide

/-- C9 as amended: every point id is `user_id ++ "_" ++ i ++ "_" ++
epoch` for its per-batch index `i` and per-point timestamp; within one
batch no two points share an id whatever the clock does; and a later
call all of whose integer timestamps are strictly larger builds ids
disjoint from the earlier batch, so upserting the re-upload adds points
instead of overwriting. -/
theorem point_id_amended (user_id : List Char) (docs1 docs2 : List Doc)
    (embs1 embs2 : List Vec) (now1 now2 : Nat → Timestamp)
    (hlater : ∀ i j : Nat, (now1 i).epoch < (now2 j).epoch) :
    (∀ i : Nat, ∀ h : i < (buildPoints user_id docs1 embs1 now1).length,
      ((buildPoints user_id docs1 embs1 now1).get ⟨i, h⟩).id =
        pointId user_id i (now1 i).epoch) ∧
    (∀ i j : Nat, ∀ hi : i < (buildPoints user_id docs1 embs1 now1).length,
      ∀ hj : j < (buildPoints user_id docs1 embs1 now1).length, i ≠ j →
      ((buildPoints user_id docs1 embs1 now1).get ⟨i, hi⟩).id ≠
        ((buildPoints user_id docs1 embs1 now1).get ⟨j, hj⟩).id) ∧
    (∀ p1 ∈ buildPoints user_id docs1 embs1 now1,
      ∀ p2 ∈ buildPoints user_id docs2 embs2 now2, p1.id ≠ p2.id) ∧
    (upsertStore (upsertStore [] (buildPoints user_id docs1 embs1 now1))
        (buildPoints user_id docs2 embs2 now2)).length =
      (buildPoints user_id docs1 embs1 now1).length +
        (buildPoints user_id docs2 embs2 now2).length := by
  have hdisj : ∀ p1 ∈ buildPoints user_id docs1 embs1 now1,
      ∀ p2 ∈ buildPoints user_id docs2 embs2 now2, p1.id ≠ p2.id := by
    intro p1 h1 p2 h2 hid
    obtain ⟨k1, hk1⟩ := buildPoints_mem_id user_id docs1 embs1 now1 p1 h1
    obtain ⟨k2, hk2⟩ := buildPoints_mem_id user_id docs2 embs2 now2 p2 h2
    rw [hk1, hk2] at hid
    have := (pointId_inj user_id hid).2
    have hlt := hlater k1 k2
    omega
  refine ⟨buildPoints_get_id user_id docs1 embs1 now1, ?_, hdisj, ?_⟩
  · intro i j hi hj hne hid
    rw [buildPoints_get_id user_id docs1 embs1 now1 i hi,
      buildPoints_get_id user_id docs1 embs1 now1 j hj] at hid
    exact hne (pointId_inj user_id hid).1
  · have h0 : upsertStore [] (buildPoints user_id docs1 embs1 now1) =
        buildPoints user_id docs1 embs1 now1 := by
      unfold upsertStore
      simp
    rw [h0]
    unfold upsertStore
    rw [List.length_append]
    congr 1
    rw [List.filter_length_eq_length]
    intro p hp
    rw [Bool.not_eq_eq_eq_not, Bool.not_true, List.any_eq_false]
    intro q hq hbeq
    exact hdisj p hp q hq (eq_of_beq hbeq).symm

/-- Witness for C9 as amended: re-ingesting the same file one second
later yields a store with two points. -/
theorem point_id_amended_witness :
    (100 : Nat) < 101 ∧
    (upsertStore (upsertStore [] (buildPoints ("u1".data) [sameDoc] [[1]] now100))
      (buildPoints ("u1".data) [sameDoc] [[1]] now101)).length = 2 :=
  ⟨by decide,
   (point_id_amended ("u1".data) [sameDoc] [sameDoc] [[1]] [[1]] now100 now101
      (fun _ _ => Nat.le.refl)).2.2.2⟩

end RAGPipe

